import Mathlib

set_option linter.unusedVariables false

/-!
Verification of the rpc package (an HTTP-transported RPC server): a shallow
embedding of src/server.go, src/server_windows.go and src/json/error.go,
together with the parts of the Go standard library net package that
clientAllowed depends on (net.SplitHostPort, net.ParseIP, net.IP.Equal),
embedded from the standard library sources.

Machine integers are modelled as Nat (all byte values stay below 256 and the
parsers bound their accumulators by 0xFFFFFF exactly as the Go code does, so
no overflow is reachable).  Go strings are handled through their character
lists; the delimiter searches (':', '[', ']', '.', '%', ';') coincide on the
byte and character level because these delimiters are ASCII and UTF-8
multi-byte sequences never contain ASCII bytes.
-/

/-- A Go net.IP value: a byte slice, either 4 or 16 bytes long. -/
abbrev IP := List Nat

-- ---------------------------------------------------------------------------
-- Go standard library: byte search helpers (bytealg.IndexByteString and
-- bytealg.LastIndexByteString restricted to the ASCII delimiters used here).
-- ---------------------------------------------------------------------------

/-- Index of the first occurrence of a character, none when absent. -/
def indexByte : List Char → Char → Option Nat
  | [], _ => none
  | c :: rest, t => if c = t then some 0 else (indexByte rest t).map (· + 1)

/-- Index of the last occurrence of a character, none when absent. -/
def lastIndexByte : List Char → Char → Option Nat
  | [], _ => none
  | c :: rest, t =>
    match lastIndexByte rest t with
    | some i => some (i + 1)
    | none => if c = t then some 0 else none

-- ---------------------------------------------------------------------------
-- Go standard library: net.SplitHostPort
-- ---------------------------------------------------------------------------

/-- The message of a net.AddrError: "address <addr>: <why>", with the prefix
dropped when the address is empty. -/
def addrErrStr (addr why : String) : String :=
  if addr = "" then why else "address " ++ addr ++ ": " ++ why

/-- Embedding of Go net.SplitHostPort: splits a network address of the form
"host:port" or "[host]:port" into host and port; errors are returned as the
message text of the AddrError the Go function produces. -/
def SplitHostPort (hostPort : String) : Except String (String × String) :=
  let cs := hostPort.toList
  match lastIndexByte cs ':' with
  | none => Except.error (addrErrStr hostPort "missing port in address")
  | some i =>
    if cs.head? = some '[' then
      match indexByte cs ']' with
      | none => Except.error (addrErrStr hostPort "missing ']' in address")
      | some e =>
        if e + 1 = cs.length then
          Except.error (addrErrStr hostPort "missing port in address")
        else if e + 1 = i then
          -- the expected result: first ']' just before the last ':'
          if (indexByte (cs.drop 1) '[').isSome then
            Except.error (addrErrStr hostPort "unexpected '[' in address")
          else if (indexByte (cs.drop (e + 1)) ']').isSome then
            Except.error (addrErrStr hostPort "unexpected ']' in address")
          else
            Except.ok (String.mk ((cs.drop 1).take (e - 1)), String.mk (cs.drop (i + 1)))
        else if cs.get? (e + 1) = some ':' then
          Except.error (addrErrStr hostPort "too many colons in address")
        else
          Except.error (addrErrStr hostPort "missing port in address")
    else
      let host := cs.take i
      if (indexByte host ':').isSome then
        Except.error (addrErrStr hostPort "too many colons in address")
      else if (indexByte cs '[').isSome then
        Except.error (addrErrStr hostPort "unexpected '[' in address")
      else if (indexByte cs ']').isSome then
        Except.error (addrErrStr hostPort "unexpected ']' in address")
      else
        Except.ok (String.mk host, String.mk (cs.drop (i + 1)))

-- ---------------------------------------------------------------------------
-- Go standard library: net.ParseIP and its helpers
-- ---------------------------------------------------------------------------

/-- Embedding of Go net dtoi: decimal prefix of a string; returns the value
and the number of characters consumed, none when there are no digits or the
accumulator reaches the bound 0xFFFFFF (Go reports ok=false in both cases). -/
def dtoiAux : List Char → Nat → Nat → Option (Nat × Nat)
  | [], n, i => if i = 0 then none else some (n, i)
  | c :: rest, n, i =>
    if '0' ≤ c ∧ c ≤ '9' then
      let n' := n * 10 + (c.toNat - '0'.toNat)
      if n' ≥ 0xFFFFFF then none else dtoiAux rest n' (i + 1)
    else if i = 0 then none else some (n, i)

def dtoi (s : List Char) : Option (Nat × Nat) := dtoiAux s 0 0

/-- Embedding of Go net xtoi: hexadecimal prefix of a string; returns the
value and the number of characters consumed, none when there are no hex
digits or the accumulator reaches the bound 0xFFFFFF. -/
def xtoiAux : List Char → Nat → Nat → Option (Nat × Nat)
  | [], n, i => if i = 0 then none else some (n, i)
  | c :: rest, n, i =>
    if '0' ≤ c ∧ c ≤ '9' then
      let n' := n * 16 + (c.toNat - '0'.toNat)
      if n' ≥ 0xFFFFFF then none else xtoiAux rest n' (i + 1)
    else if 'a' ≤ c ∧ c ≤ 'f' then
      let n' := n * 16 + (c.toNat - 'a'.toNat) + 10
      if n' ≥ 0xFFFFFF then none else xtoiAux rest n' (i + 1)
    else if 'A' ≤ c ∧ c ≤ 'F' then
      let n' := n * 16 + (c.toNat - 'A'.toNat) + 10
      if n' ≥ 0xFFFFFF then none else xtoiAux rest n' (i + 1)
    else if i = 0 then none else some (n, i)

def xtoi (s : List Char) : Option (Nat × Nat) := xtoiAux s 0 0

/-- The 12-byte prefix marking an IPv4 address inside a 16-byte IP. -/
def v4InV6Prefix : List Nat := [0, 0, 0, 0, 0, 0, 0, 0, 0, 0, 0xff, 0xff]

/-- Go net.IPv4: the 16-byte IPv4-in-IPv6 representation of a.b.c.d. -/
def IPv4 (a b c d : Nat) : IP := v4InV6Prefix ++ [a, b, c, d]

/-- One field of Go net parseIPv4's loop: fields is the number of octets still
to read, first marks the leading octet (no '.' separator before it). -/
def parseIPv4Aux : Nat → Bool → List Char → List Nat → Option (List Nat)
  | 0, _, s, acc => if s.isEmpty then some acc else none
  | k + 1, first, s, acc =>
    if s.isEmpty then none
    else
      let s' : Option (List Char) :=
        if first then some s
        else match s with
          | '.' :: rest => some rest
          | _ => none
      match s' with
      | none => none
      | some s =>
        match dtoi s with
        | none => none
        | some (n, c) =>
          if n > 0xFF then none
          else if c > 1 ∧ s.head? = some '0' then none
          else parseIPv4Aux k false (s.drop c) (acc ++ [n])

/-- Embedding of Go net parseIPv4: four dotted decimal octets, returned in the
16-byte IPv4-in-IPv6 form exactly as Go's IPv4 constructor produces. -/
def parseIPv4 (s : List Char) : Option IP :=
  match parseIPv4Aux 4 true s [] with
  | some p => some (v4InV6Prefix ++ p)
  | none => none

/-- Embedding of Go net splitHostZone: the zone starts after the last percent
sign, provided the percent sign is not the first character. -/
def splitHostZone (cs : List Char) : List Char × List Char :=
  match lastIndexByte cs '%' with
  | some i => if i > 0 then (cs.take i, cs.drop (i + 1)) else (cs, [])
  | none => (cs, [])

/-- The loop of Go net parseIPv6.  The accumulator holds the bytes filled so
far (its length is Go's loop index i), ell the ellipsis position when one was
seen.  Returns the accumulator, the ellipsis and the unconsumed rest of the
string at loop exit.  The fuel only bounds the iteration count: every
iteration appends at least two bytes and the loop stops at sixteen, so eight
iterations always suffice and fuel sixteen is never exhausted. -/
def parseIPv6Loop : Nat → List Char → List Nat → Option Nat →
    Option (List Nat × Option Nat × List Char)
  | 0, _, _, _ => none
  | fuel + 1, s, acc, ell =>
    match xtoi s with
    | none => none
    | some (n, c) =>
      if n > 0xFFFF then none
      else if (s.drop c).head? = some '.' then
        -- possibly a trailing IPv4 address
        if ell.isNone ∧ acc.length ≠ 12 then none
        else if acc.length + 4 > 16 then none
        else
          match parseIPv4 s with
          | none => none
          | some ip4 => some (acc ++ ip4.drop 12, ell, [])
      else
        let acc := acc ++ [n / 256, n % 256]
        let s := s.drop c
        if s.isEmpty then some (acc, ell, [])
        else if s.head? ≠ some ':' ∨ s.length = 1 then none
        else
          let s := s.drop 1
          if s.head? = some ':' then
            if ell.isSome then none
            else
              let ell := some acc.length
              let s := s.drop 1
              if s.isEmpty then some (acc, ell, [])
              else if acc.length < 16 then parseIPv6Loop fuel s acc ell
              else some (acc, ell, s)
          else if acc.length < 16 then parseIPv6Loop fuel s acc ell
          else some (acc, ell, s)

/-- The checks Go net parseIPv6 performs after its loop: the whole string must
be consumed, an ellipsis expands to the missing zero bytes, and an ellipsis in
a full sixteen-byte address is rejected. -/
def parseIPv6Finish : Option (List Nat × Option Nat × List Char) → Option IP
  | none => none
  | some (acc, ell, s) =>
    if ¬ s.isEmpty then none
    else if acc.length < 16 then
      match ell with
      | none => none
      | some e => some (acc.take e ++ List.replicate (16 - acc.length) 0 ++ acc.drop e)
    else
      match ell with
      | some _ => none
      | none => some acc

/-- Embedding of Go net parseIPv6. -/
def parseIPv6 (s : List Char) : Option IP :=
  match s with
  | ':' :: ':' :: rest =>
    if rest.isEmpty then some (List.replicate 16 0)
    else parseIPv6Finish (parseIPv6Loop 16 rest [] (some 0))
  | _ => parseIPv6Finish (parseIPv6Loop 16 s [] none)

/-- The dispatch of Go net.ParseIP: scan for the first '.' or ':'. -/
def parseIPKind : List Char → Option Bool
  | [] => none
  | c :: rest =>
    if c = '.' then some true
    else if c = ':' then some false
    else parseIPKind rest

/-- Embedding of Go net.ParseIP: dotted decimal goes to parseIPv4, a colon to
parseIPv6 (with any scoped-zone suffix split off and ignored), anything else
is nil. -/
def ParseIP (s : String) : Option IP :=
  match parseIPKind s.toList with
  | some true => parseIPv4 s.toList
  | some false => parseIPv6 (splitHostZone s.toList).1
  | none => none

/-- Embedding of Go net.IP.Equal: byte-for-byte equality, treating a 4-byte
IPv4 address and its 16-byte IPv4-in-IPv6 form as equal. -/
def IP.Equal (ip x : IP) : Bool :=
  if ip.length = x.length then ip = x
  else if ip.length = 4 ∧ x.length = 16 then
    x.take 12 = v4InV6Prefix ∧ ip = x.drop 12
  else if ip.length = 16 ∧ x.length = 4 then
    ip.take 12 = v4InV6Prefix ∧ x = ip.drop 12
  else false

-- ---------------------------------------------------------------------------
-- src/server.go: error values and clientAllowed
-- ---------------------------------------------------------------------------

def ErrEmptyBindLocal : String := "rpc: local address list is empty"

def ErrMalformedRemoteIp : String := "rpc: remote client rejected, cannot read its IP"

def ErrRemoteNotAllowed : String := "rpc: remote client rejected, not allowed by the server"

/-- Embedding of Server.clientAllowed (src/server.go lines 190-210): none
means the nil error (the client is admitted), some carries the message of the
returned error. -/
def clientAllowed (allow : List IP) (remoteAddr : String) : Option String :=
  if allow.length = 0 then none
  else
    match SplitHostPort remoteAddr with
    | Except.error e => some (ErrMalformedRemoteIp ++ ": " ++ e)
    | Except.ok (host, _) =>
      match ParseIP host with
      | none => some ErrMalformedRemoteIp
      | some ip =>
        if allow.any (fun a => IP.Equal a ip) then none
        else some ErrRemoteNotAllowed

-- ---------------------------------------------------------------------------
-- net/http response writer model
-- ---------------------------------------------------------------------------

/-- A header map, as an association list of name/value pairs. -/
abbrev Header := List (String × String)

/-- Model of an http.ResponseWriter: a pending header map, the committed
status line together with the snapshot of the header map taken when the
status was committed (net/http sends exactly the headers present at the
WriteHeader call; later Header().Set calls touch only the pending map and
never reach the wire), and the body written so far. -/
structure ResponseWriter where
  pending : Header
  committed : Option (Nat × Header)
  body : String
deriving DecidableEq, Repr

def emptyWriter : ResponseWriter := { pending := [], committed := none, body := "" }

/-- Header().Set(key, value): replaces any pending value for the key. -/
def headerSet (w : ResponseWriter) (key value : String) : ResponseWriter :=
  { w with pending := (key, value) :: w.pending.filter (fun kv => kv.1 ≠ key) }

/-- WriteHeader(status): commits the status line and the current pending
headers; a second call is ignored by net/http. -/
def writeHeader (w : ResponseWriter) (status : Nat) : ResponseWriter :=
  match w.committed with
  | some _ => w
  | none => { w with committed := some (status, w.pending) }

/-- Write(body): an implicit WriteHeader(200) when nothing was committed yet,
then the bytes are appended to the body. -/
def writeBody (w : ResponseWriter) (s : String) : ResponseWriter :=
  let w := writeHeader w 200
  { w with body := w.body ++ s }

/-- The committed status line, none when nothing was committed. -/
def ResponseWriter.status (w : ResponseWriter) : Option Nat :=
  match w.committed with
  | some (st, _) => some st
  | none => none

/-- The headers that were actually sent with the status line. -/
def sentHeaders (w : ResponseWriter) : Header :=
  match w.committed with
  | some (_, h) => h
  | none => []

/-- Whether a header name is among the headers sent with the status line. -/
def committedHeaderHas (w : ResponseWriter) (key : String) : Bool :=
  (sentHeaders w).any (fun kv => kv.1 = key)

/-- Value of a pending header, none when the key is absent. -/
def pendingGet (w : ResponseWriter) (key : String) : Option String :=
  ((w.pending.find? (fun kv => kv.1 = key)).map (fun kv => kv.2))

/-- Embedding of writeError (src/server.go lines 212-216): WriteHeader first,
the Content-Type header only after it, then the message as the body. -/
def writeError (w : ResponseWriter) (status : Nat) (msg : String) : ResponseWriter :=
  writeBody (headerSet (writeHeader w status) "Content-Type" "text/plain; charset=utf-8") msg

-- ---------------------------------------------------------------------------
-- src/server.go: server state, codecs, dispatch
-- ---------------------------------------------------------------------------

/-- An incoming http.Request, restricted to the fields the dispatcher reads. -/
structure Request where
  remoteAddr : String
  method : String
  header : Header
deriving DecidableEq, Repr

/-- Header.Get: the first value for the key, the empty string when absent. -/
def headerGet (h : Header) (key : String) : String :=
  match h.find? (fun kv => kv.1 = key) with
  | some kv => kv.2
  | none => ""

/-- strings.Index + slicing (src/server.go lines 139-142): the content type
truncated at the first semicolon when one is present. -/
def truncAtSemi (s : String) : String :=
  match indexByte s.toList ';' with
  | none => s
  | some idx => String.mk (s.toList.take idx)

/-- strings.ToLower, restricted to the ASCII case mapping. -/
def lowerGo (s : String) : String := String.mk (s.toList.map Char.toLower)

/-- The result of one service method invocation: the value the method leaves
in its reply out-parameter and the error it returns (none is the nil error).
The dispatcher treats both opaquely, so this is all of a method's behaviour
it can observe. -/
structure MethodSpec where
  reply : String
  errResult : Option String
deriving DecidableEq, Repr

/-- Per-request behaviour of a registered codec, the dispatcher's view of the
Codec and CodecRequest interfaces: the Method() result, the ReadRequest
result, and for WriteResponse the transformation it applies to the response
writer together with its returned error. -/
structure CodecBehavior where
  methodName : Except String String
  readReq : Except String Unit
  writeResp : ResponseWriter → String → Option String → ResponseWriter × Option String

/-- The service registry: service name to method table, method name to the
registered method. -/
abbrev Registry := List (String × List (String × MethodSpec))

/-- Go map assignment on an association list. -/
def assocSet {α : Type} (m : List (String × α)) (k : String) (v : α) : List (String × α) :=
  (k, v) :: m.filter (fun kv => kv.1 ≠ k)

/-- Go map lookup on an association list. -/
def assocGet {α : Type} (m : List (String × α)) (k : String) : Option α :=
  (m.find? (fun kv => kv.1 = k)).map (fun kv => kv.2)

/-- Number of occurrences of a character. -/
def countChar : List Char → Char → Nat
  | [], _ => 0
  | c :: rest, t => (if c = t then 1 else 0) + countChar rest t

/-- Modelled from the spec: serviceMap.get, whose source file (map.go) is not
under src/ (only its caller in ServeHTTP and its tests are).  Following
section 4.1 of the spec, the dotted name must contain exactly one separator
splitting it into two non-empty parts, the service part must name a
registered service and the method part a method of that service. -/
def serviceGet (reg : Registry) (dotted : String) : Except String MethodSpec :=
  let cs := dotted.toList
  if countChar cs '.' ≠ 1 then
    Except.error ("rpc: service/method request ill-formed: " ++ dotted)
  else
    match indexByte cs '.' with
    | none => Except.error ("rpc: service/method request ill-formed: " ++ dotted)
    | some i =>
      let svc := String.mk (cs.take i)
      let mth := String.mk (cs.drop (i + 1))
      if svc = "" ∨ mth = "" then
        Except.error ("rpc: service/method request ill-formed: " ++ dotted)
      else
        match assocGet reg svc with
        | none => Except.error ("rpc: can't find service " ++ svc)
        | some tbl =>
          match assocGet tbl mth with
          | none => Except.error ("rpc: can't find method " ++ dotted)
          | some ms => Except.ok ms

/-- The server state (src/server.go lines 57-61). -/
structure Server where
  codecs : List (String × CodecBehavior)
  services : Registry
  allow : List IP

/-- Embedding of NewServer (src/server.go lines 49-54). -/
def NewServer : Server := { codecs := [], services := [], allow := [] }

/-- Embedding of RegisterCodec (src/server.go lines 68-70): the registration
key is the lower-cased content type. -/
def RegisterCodec (s : Server) (codec : CodecBehavior) (contentType : String) : Server :=
  { s with codecs := assocSet s.codecs (lowerGo contentType) codec }

/-- Embedding of Bind (src/server.go lines 104-106): replaces the allow list
wholesale. -/
def Server.Bind (s : Server) (allow : List IP) : Server :=
  { s with allow := allow }

/-- An interface address as returned by net.InterfaceAddrs: BindLocal keeps
exactly the addresses whose dynamic type is *net.IPNet (the mask is never
read) and skips every other address type. -/
inductive NetAddr where
  | ipNet (ip : IP)
  | otherAddr (descr : String)
deriving DecidableEq, Repr

/-- The loop of BindLocal (src/server.go lines 115-120): the IPs of the
*net.IPNet addresses, in order. -/
def interfaceIPs (addrs : List NetAddr) : List IP :=
  addrs.foldl
    (fun acc a =>
      match a with
      | NetAddr.ipNet ip => acc ++ [ip]
      | NetAddr.otherAddr _ => acc)
    []

/-- Embedding of BindLocal (src/server.go lines 110-126).  The result of the
net.InterfaceAddrs call is passed in explicitly (it is the only effect of the
function): an enumeration failure is propagated unchanged, an enumeration
with no *net.IPNet entries fails with ErrEmptyBindLocal, and otherwise the
collected IPs are handed to Bind. -/
def BindLocal (s : Server) (ifaceAddrs : Except String (List NetAddr)) :
    Except String Unit × Server :=
  match ifaceAddrs with
  | Except.error e => (Except.error e, s)
  | Except.ok addrs =>
    let localList := interfaceIPs addrs
    if localList.length = 0 then (Except.error ErrEmptyBindLocal, s)
    else (Except.ok (), Server.Bind s localList)

/-- The interactions of one dispatch with the codec and the registry, in the
order they happen; the self-contained response writing is read off the
returned writer instead. -/
inductive Event where
  | lookupCodec (key : String)
  | codecMethod
  | getMethod (name : String)
  | readRequest
  | invoke (reply : String) (errResult : Option String)
  | writeResponse (reply : String) (errResult : Option String)
deriving DecidableEq, Repr

/-- Embedding of Server.ServeHTTP (src/server.go lines 129-188), returning
the final response writer and the trace of codec/registry interactions. -/
def ServeHTTP (s : Server) (r : Request) (w : ResponseWriter) :
    ResponseWriter × List Event :=
  match clientAllowed s.allow r.remoteAddr with
  | some err => (writeError w 403 err, [])
  | none =>
    if r.method ≠ "POST" then
      (writeError w 405 ("rpc: POST method required, received " ++ r.method), [])
    else
      match assocGet s.codecs (lowerGo (truncAtSemi (headerGet r.header "Content-Type"))) with
      | none =>
        (writeError w 415
            ("rpc: unrecognized Content-Type: " ++ truncAtSemi (headerGet r.header "Content-Type")),
          [Event.lookupCodec (lowerGo (truncAtSemi (headerGet r.header "Content-Type")))])
      | some codec =>
        match codec.methodName with
        | Except.error errMethod =>
          (writeError w 400 errMethod,
            [Event.lookupCodec (lowerGo (truncAtSemi (headerGet r.header "Content-Type"))),
              Event.codecMethod])
        | Except.ok method =>
          match serviceGet s.services method with
          | Except.error errGet =>
            (writeError w 400 errGet,
              [Event.lookupCodec (lowerGo (truncAtSemi (headerGet r.header "Content-Type"))),
                Event.codecMethod, Event.getMethod method])
          | Except.ok methodSpec =>
            match codec.readReq with
            | Except.error errRead =>
              (writeError w 400 errRead,
                [Event.lookupCodec (lowerGo (truncAtSemi (headerGet r.header "Content-Type"))),
                  Event.codecMethod, Event.getMethod method, Event.readRequest])
            | Except.ok _ =>
              let w := headerSet w "x-content-type-options" "nosniff"
              let trace :=
                [Event.lookupCodec (lowerGo (truncAtSemi (headerGet r.header "Content-Type"))),
                  Event.codecMethod, Event.getMethod method, Event.readRequest,
                  Event.invoke methodSpec.reply methodSpec.errResult,
                  Event.writeResponse methodSpec.reply methodSpec.errResult]
              match codec.writeResp w methodSpec.reply methodSpec.errResult with
              | (w, some errWrite) => (writeError w 400 errWrite, trace)
              | (w, none) => (w, trace)

-- ---------------------------------------------------------------------------
-- Service registration, modelled from the spec
-- ---------------------------------------------------------------------------

/-- A name is exported when it begins with an upper-case letter. -/
def isExported (name : String) : Bool :=
  match name.toList with
  | [] => false
  | c :: _ => c.isUpper

/-- Modelled from the spec: one candidate method of a receiver, as seen by
serviceMap.register, whose source file (map.go) is not under src/.  The name
is carried literally (rule 1 of section 4.1 is computed from it); the shape
properties of rules 2-4, which the Go code reads off the reflective method
type, are carried as booleans; spec is the method's invocation behaviour. -/
structure MethodInfo where
  name : String
  threeParamShape : Bool
  refParams : Bool
  typesExportedOrLocal : Bool
  returnsError : Bool
  spec : MethodSpec
deriving DecidableEq, Repr

/-- Modelled from the spec: a receiver object offered for registration, with
its type name (used when no explicit name is given) and its methods. -/
structure Receiver where
  typeName : String
  methods : List MethodInfo
deriving DecidableEq, Repr

/-- The five discovery rules of section 4.1 of the spec, applied to one
candidate method. -/
def suitableMethod (m : MethodInfo) : Bool :=
  isExported m.name && m.threeParamShape && m.refParams &&
    m.typesExportedOrLocal && m.returnsError

/-- Modelled from the spec: serviceMap.register, whose source file (map.go)
is not under src/ (only its caller RegisterService and its tests are).
Following section 4.1 of the spec: an empty explicit name is replaced by the
receiver's type name; a name that is not exported fails with the
InvalidServiceName error; the methods are filtered by the five discovery
rules; an empty method table fails with the NoSuitableMethods error; on
success the service is inserted under the resolved name, overwriting any
previous entry.  Both failures leave the registry untouched. -/
def RegisterService (reg : Registry) (receiver : Receiver) (name : String) :
    Except String Unit × Registry :=
  let sname := if name = "" then receiver.typeName else name
  if isExported sname = false then
    (Except.error ("rpc: service name is not exported: " ++ sname), reg)
  else
    let suitable := receiver.methods.filter suitableMethod
    if suitable.isEmpty then
      (Except.error ("rpc: no suitable methods to expose: " ++ sname), reg)
    else
      (Except.ok (), assocSet reg sname (suitable.map (fun m => (m.name, m.spec))))

-- ---------------------------------------------------------------------------
-- src/json/error.go
-- ---------------------------------------------------------------------------

/-- A Go value held in a map destined for json.Marshal.  The unsupported
constructor stands for the values json.Marshal rejects (functions, channels,
complex numbers, cyclic data); descr is what fmt verbs print for it. -/
inductive GoVal where
  | vStr (s : String)
  | vInt (n : Int)
  | vBool (b : Bool)
  | vUnsupported (descr : String)
deriving DecidableEq, Repr

/-- A Go map of string keys to values, as an association list. -/
abbrev GoMap := List (String × GoVal)

/-- Insertion into a key-sorted association list (json.Marshal and the fmt
package both print Go maps in sorted key order). -/
def insertByKey (p : String × GoVal) : GoMap → GoMap
  | [] => [p]
  | q :: rest => if q.1 < p.1 then q :: insertByKey p rest else p :: q :: rest

def sortByKey (m : GoMap) : GoMap := m.foldr insertByKey []

/-- JSON string escaping, restricted to the two characters that occur in the
values this development evaluates. -/
def jsonEscape (s : String) : String :=
  String.mk
    (s.toList.foldr
      (fun c acc =>
        if c = '"' then '\\' :: '"' :: acc
        else if c = '\\' then '\\' :: '\\' :: acc
        else c :: acc)
      [])

/-- json.Marshal of a single value; none for the value kinds it rejects. -/
def marshalVal : GoVal → Option String
  | GoVal.vStr s => some ("\"" ++ jsonEscape s ++ "\"")
  | GoVal.vInt n => some (toString n)
  | GoVal.vBool b => some (if b then "true" else "false")
  | GoVal.vUnsupported _ => none

def marshalEntries : GoMap → Option (List String)
  | [] => some []
  | (k, v) :: rest =>
    match marshalVal v, marshalEntries rest with
    | some mv, some ms => some (("\"" ++ jsonEscape k ++ "\":" ++ mv) :: ms)
    | _, _ => none

def joinSep (sep : String) : List String → String
  | [] => ""
  | [x] => x
  | x :: xs => x ++ sep ++ joinSep sep xs

/-- json.Marshal of a map[string]interface object: none when any value is
unmarshallable, otherwise the JSON object text in sorted key order. -/
def marshalMap (m : GoMap) : Option String :=
  match marshalEntries (sortByKey m) with
  | some es => some ("\x7b" ++ joinSep "," es ++ "\x7d")
  | none => none

/-- What the fmt verb used by NewErrorObject prints for a single value. -/
def formatVal : GoVal → String
  | GoVal.vStr s => s
  | GoVal.vInt n => toString n
  | GoVal.vBool b => if b then "true" else "false"
  | GoVal.vUnsupported d => d

/-- fmt.Sprintf of a map: the entries in sorted key order. -/
def formatGoMap (m : GoMap) : String :=
  "map[" ++ joinSep " " ((sortByKey m).map (fun kv => kv.1 ++ ":" ++ formatVal kv.2)) ++ "]"

/-- The json.Error wrapper (src/json/error.go lines 16-19): the object map
and the marshalled blob, the latter none when the Go field holds nil. -/
structure JError where
  object : GoMap
  blob : Option String
deriving DecidableEq, Repr

/-- Embedding of NewErrorObject (src/json/error.go lines 38-51): marshal the
object; on failure keep a nil blob and replace the object by a fallback map
with code -1 and the formatted original as the message.  The function always
returns a value, never an error. -/
def NewErrorObject (object : GoMap) : JError :=
  match marshalMap object with
  | some b => { object := object, blob := some b }
  | none =>
    { object := [("code", GoVal.vInt (-1)), ("message", GoVal.vStr (formatGoMap object))],
      blob := none }

-- ---------------------------------------------------------------------------
-- Claims
-- ---------------------------------------------------------------------------

/-- C1 counterexample: the claim says that with an empty allow list the
admission check returns an error for every malformed remote address; but for
the address "garbage", which cannot be split as host:port, clientAllowed with
an empty allow list still returns the nil error, admitting the client. -/
theorem clientAllowed_empty_malformed_permitted :
    SplitHostPort "garbage" = Except.error "address garbage: missing port in address"
    ∧ clientAllowed [] "garbage" = none := by
  exact ⟨rfl, rfl⟩

/-- C1 (amended): when the permitted set is empty, the admission check
permits every remote address string, malformed ones included, without
parsing it. -/
theorem clientAllowed_empty_permits_all (remoteAddr : String) :
    clientAllowed [] remoteAddr = none := rfl

/-- C2: with a non-empty permitted set, the admission check fails with the
malformed-remote-address error when the address cannot be split as host:port
or its host is not an IP literal, admits the client when the parsed IP
equals some entry of the permitted set under net.IP.Equal (which includes
the IPv4-mapped-IPv6 normalization), and otherwise fails with the
remote-not-allowed error. -/
theorem clientAllowed_nonempty_spec (allow : List IP) (remoteAddr : String)
    (hne : allow ≠ []) :
    (∀ e, SplitHostPort remoteAddr = Except.error e →
      clientAllowed allow remoteAddr = some (ErrMalformedRemoteIp ++ ": " ++ e))
    ∧ (∀ host port, SplitHostPort remoteAddr = Except.ok (host, port) →
        ParseIP host = none →
        clientAllowed allow remoteAddr = some ErrMalformedRemoteIp)
    ∧ (∀ host port ip, SplitHostPort remoteAddr = Except.ok (host, port) →
        ParseIP host = some ip →
        ((∃ a ∈ allow, IP.Equal a ip = true) → clientAllowed allow remoteAddr = none)
        ∧ ((∀ a ∈ allow, IP.Equal a ip = false) →
            clientAllowed allow remoteAddr = some ErrRemoteNotAllowed)) := by
  have hlen : ¬ allow.length = 0 := by
    cases allow with
    | nil => exact absurd rfl hne
    | cons a l => simp
  refine ⟨?_, ?_, ?_⟩
  · intro e he
    simp [clientAllowed, hlen, he]
  · intro host port hsp hip
    simp [clientAllowed, hlen, hsp, hip]
  · intro host port ip hsp hip
    constructor
    · rintro ⟨a, ha, heq⟩
      have hany : allow.any (fun a => IP.Equal a ip) = true :=
        List.any_eq_true.mpr ⟨a, ha, heq⟩
      simp [clientAllowed, hlen, hsp, hip, hany]
    · intro hall
      have hany : allow.any (fun a => IP.Equal a ip) = false := by
        rw [List.any_eq_false]
        intro a ha
        rw [hall a ha]
        simp
      simp [clientAllowed, hlen, hsp, hip, hany]

/-- Witness for C2: the permitted set holding the 4-byte 127.0.0.1 admits the
remote address 127.0.0.1:80, whose parsed IP is the 16-byte IPv4-mapped form,
through the third branch of the specification theorem. -/
theorem clientAllowed_nonempty_spec_witness :
    clientAllowed [[127, 0, 0, 1]] "127.0.0.1:80" = none := by
  have h := (clientAllowed_nonempty_spec [[127, 0, 0, 1]] "127.0.0.1:80" (by simp)).2.2
    "127.0.0.1" "80" (IPv4 127 0 0 1) rfl rfl
  exact h.1 ⟨[127, 0, 0, 1], by simp, by decide⟩

/-- C3: the dispatcher evaluates the admission filter before the verb gate:
an admission failure yields status 403 whatever the verb, and an admitted
request with a verb other than POST yields status 405; in both cases the
trace is empty, so no codec lookup, method resolution or invocation
happened. -/
theorem ServeHTTP_admission_before_verb (s : Server) (r : Request) :
    (∀ err, clientAllowed s.allow r.remoteAddr = some err →
      (ServeHTTP s r emptyWriter).1.status = some 403
      ∧ (ServeHTTP s r emptyWriter).2 = [])
    ∧ (clientAllowed s.allow r.remoteAddr = none → r.method ≠ "POST" →
      (ServeHTTP s r emptyWriter).1.status = some 405
      ∧ (ServeHTTP s r emptyWriter).2 = []) := by
  constructor
  · intro err herr
    simp [ServeHTTP, herr, writeError, writeBody, headerSet, writeHeader, emptyWriter,
      ResponseWriter.status]
  · intro hok hverb
    simp [ServeHTTP, hok, hverb, writeError, writeBody, headerSet, writeHeader, emptyWriter,
      ResponseWriter.status]

/-- Witness for C3: a GET request from a non-permitted peer is refused with
403, and a GET request from a permitted-by-default peer (empty allow list)
is refused with 405; neither run interacts with codecs or services. -/
theorem ServeHTTP_admission_before_verb_witness :
    ((ServeHTTP { codecs := [], services := [], allow := [[9, 9, 9, 9]] }
        { remoteAddr := "8.8.8.8:53", method := "GET", header := [] } emptyWriter).1.status
        = some 403
      ∧ (ServeHTTP { codecs := [], services := [], allow := [[9, 9, 9, 9]] }
        { remoteAddr := "8.8.8.8:53", method := "GET", header := [] } emptyWriter).2 = [])
    ∧ ((ServeHTTP { codecs := [], services := [], allow := [] }
        { remoteAddr := "8.8.8.8:53", method := "GET", header := [] } emptyWriter).1.status
        = some 405
      ∧ (ServeHTTP { codecs := [], services := [], allow := [] }
        { remoteAddr := "8.8.8.8:53", method := "GET", header := [] } emptyWriter).2 = []) := by
  constructor
  · exact (ServeHTTP_admission_before_verb _ _).1 ErrRemoteNotAllowed (by decide)
  · exact (ServeHTTP_admission_before_verb _ _).2 rfl (by decide)

/-- C4: for an admitted POST request the dispatcher truncates the
Content-Type header value at the first semicolon, lower-cases it and looks
it up among the registered codecs; when the lookup fails the response status
is 415 and the trace holds only the codec lookup, so nothing further
happened.  Registration stores codecs under the lower-cased content type,
and a missing Content-Type header reads as the empty string. -/
theorem ServeHTTP_content_negotiation (s : Server) (r : Request)
    (c : CodecBehavior) (ct : String)
    (h1 : clientAllowed s.allow r.remoteAddr = none)
    (h2 : r.method = "POST")
    (h3 : assocGet s.codecs (lowerGo (truncAtSemi (headerGet r.header "Content-Type"))) = none) :
    (ServeHTTP s r emptyWriter).1.status = some 415
    ∧ (ServeHTTP s r emptyWriter).2
        = [Event.lookupCodec (lowerGo (truncAtSemi (headerGet r.header "Content-Type")))]
    ∧ assocGet (RegisterCodec s c ct).codecs (lowerGo ct) = some c
    ∧ (∀ h : Header, h.find? (fun kv => kv.1 = "Content-Type") = none →
        headerGet h "Content-Type" = "") := by
  refine ⟨?_, ?_, ?_, ?_⟩
  · simp [ServeHTTP, h1, h2, h3, writeError, writeBody, headerSet, writeHeader, emptyWriter,
      ResponseWriter.status]
  · simp [ServeHTTP, h1, h2, h3]
  · simp [RegisterCodec, assocSet, assocGet, List.find?]
  · intro h hfind
    simp [headerGet, hfind]

/-- Witness for C4: a POST request without a Content-Type header against a
server with no codecs is refused with 415 after the codec lookup of the
empty key. -/
theorem ServeHTTP_content_negotiation_witness :
    (ServeHTTP { codecs := [], services := [], allow := [] }
      { remoteAddr := "1.2.3.4:5", method := "POST", header := [] } emptyWriter).1.status
      = some 415 :=
  (ServeHTTP_content_negotiation
    { codecs := [], services := [], allow := [] }
    { remoteAddr := "1.2.3.4:5", method := "POST", header := [] }
    { methodName := Except.ok "", readReq := Except.ok (), writeResp := fun w _ _ => (w, none) }
    "Application/JSON" rfl rfl rfl).1

/-- C5: when a request reaches invocation, the error the invoked method
returned (nil or not) is passed to the codec's WriteResponse together with
the reply instance, and when that write succeeds the dispatcher returns the
codec's writer untouched — it never writes a transport-layer 4xx error for
the method's own error. -/
theorem ServeHTTP_app_error_to_codec (s : Server) (r : Request)
    (codec : CodecBehavior) (mname : String) (mspec : MethodSpec)
    (h1 : clientAllowed s.allow r.remoteAddr = none)
    (h2 : r.method = "POST")
    (h3 : assocGet s.codecs (lowerGo (truncAtSemi (headerGet r.header "Content-Type")))
        = some codec)
    (h4 : codec.methodName = Except.ok mname)
    (h5 : serviceGet s.services mname = Except.ok mspec)
    (h6 : codec.readReq = Except.ok ()) :
    Event.writeResponse mspec.reply mspec.errResult ∈ (ServeHTTP s r emptyWriter).2
    ∧ (∀ w2, codec.writeResp (headerSet emptyWriter "x-content-type-options" "nosniff")
          mspec.reply mspec.errResult = (w2, none) →
        (ServeHTTP s r emptyWriter).1 = w2) := by
  constructor
  · rcases hw : codec.writeResp (headerSet emptyWriter "x-content-type-options" "nosniff")
        mspec.reply mspec.errResult with ⟨w2, we⟩
    cases we with
    | none => simp [ServeHTTP, h1, h2, h3, h4, h5, h6, hw]
    | some ew => simp [ServeHTTP, h1, h2, h3, h4, h5, h6, hw]
  · intro w2 hw
    simp [ServeHTTP, h1, h2, h3, h4, h5, h6, hw]

/-- Witness for C5: a method returning the application error "boom" still
reaches WriteResponse with exactly that error. -/
theorem ServeHTTP_app_error_to_codec_witness :
    Event.writeResponse "reply1" (some "boom")
      ∈ (ServeHTTP
          { codecs :=
              [("application/json",
                { methodName := Except.ok "Svc.M", readReq := Except.ok (),
                  writeResp := fun w _ _ => (writeBody w "done", none) })],
            services := [("Svc", [("M", { reply := "reply1", errResult := some "boom" })])],
            allow := [] }
          { remoteAddr := "1.2.3.4:5", method := "POST",
            header := [("Content-Type", "application/json")] }
          emptyWriter).2 :=
  (ServeHTTP_app_error_to_codec
    { codecs :=
        [("application/json",
          { methodName := Except.ok "Svc.M", readReq := Except.ok (),
            writeResp := fun w _ _ => (writeBody w "done", none) })],
      services := [("Svc", [("M", { reply := "reply1", errResult := some "boom" })])],
      allow := [] }
    { remoteAddr := "1.2.3.4:5", method := "POST",
      header := [("Content-Type", "application/json")] }
    { methodName := Except.ok "Svc.M", readReq := Except.ok (),
      writeResp := fun w _ _ => (writeBody w "done", none) }
    "Svc.M" { reply := "reply1", errResult := some "boom" }
    rfl rfl rfl rfl rfl rfl).1

/-- C6: the dispatcher sets the x-content-type-options: nosniff header
before handing the writer to the codec's WriteResponse, and when that write
fails it falls back to a plain-text error response with status 400 carrying
the failure's message. -/
theorem ServeHTTP_nosniff_then_write (s : Server) (r : Request)
    (codec : CodecBehavior) (mname : String) (mspec : MethodSpec)
    (h1 : clientAllowed s.allow r.remoteAddr = none)
    (h2 : r.method = "POST")
    (h3 : assocGet s.codecs (lowerGo (truncAtSemi (headerGet r.header "Content-Type")))
        = some codec)
    (h4 : codec.methodName = Except.ok mname)
    (h5 : serviceGet s.services mname = Except.ok mspec)
    (h6 : codec.readReq = Except.ok ()) :
    pendingGet (headerSet emptyWriter "x-content-type-options" "nosniff")
        "x-content-type-options" = some "nosniff"
    ∧ (∀ w2 ew, codec.writeResp (headerSet emptyWriter "x-content-type-options" "nosniff")
          mspec.reply mspec.errResult = (w2, some ew) →
        (ServeHTTP s r emptyWriter).1 = writeError w2 400 ew)
    ∧ (∀ (w2 : ResponseWriter) (ew : String), w2.committed = none →
        (writeError w2 400 ew).status = some 400) := by
  refine ⟨?_, ?_, ?_⟩
  · simp [pendingGet, headerSet, emptyWriter, List.find?]
  · intro w2 ew hw
    simp [ServeHTTP, h1, h2, h3, h4, h5, h6, hw]
  · intro w2 ew hc
    simp [writeError, writeBody, headerSet, writeHeader, hc, ResponseWriter.status]

/-- Witness for C6: a codec whose WriteResponse fails without writing makes
the dispatcher answer through writeError with status 400 and the failure's
message. -/
theorem ServeHTTP_nosniff_then_write_witness :
    (ServeHTTP
        { codecs :=
            [("x",
              { methodName := Except.ok "S.M", readReq := Except.ok (),
                writeResp := fun w _ _ => (w, some "encode fail") })],
          services := [("S", [("M", { reply := "rep", errResult := none })])],
          allow := [] }
        { remoteAddr := "1.1.1.1:1", method := "POST", header := [("Content-Type", "x")] }
        emptyWriter).1
      = writeError (headerSet emptyWriter "x-content-type-options" "nosniff") 400
          "encode fail" :=
  ((ServeHTTP_nosniff_then_write
    { codecs :=
        [("x",
          { methodName := Except.ok "S.M", readReq := Except.ok (),
            writeResp := fun w _ _ => (w, some "encode fail") })],
      services := [("S", [("M", { reply := "rep", errResult := none })])],
      allow := [] }
    { remoteAddr := "1.1.1.1:1", method := "POST", header := [("Content-Type", "x")] }
    { methodName := Except.ok "S.M", readReq := Except.ok (),
      writeResp := fun w _ _ => (w, some "encode fail") }
    "S.M" { reply := "rep", errResult := none }
    rfl rfl rfl rfl rfl rfl).2.1
    (headerSet emptyWriter "x-content-type-options" "nosniff") "encode fail" rfl)

/-- C7: BindLocal propagates an interface-enumeration failure, fails with
the empty-bind-local error when the enumeration yields no IP-network
addresses, leaves the server (its permitted set included) unchanged in both
failure cases, and otherwise replaces the permitted set with the enumerated
interface IPs through Bind. -/
theorem BindLocal_spec (s : Server) (res : Except String (List NetAddr)) :
    (∀ e, res = Except.error e → BindLocal s res = (Except.error e, s))
    ∧ (∀ addrs, res = Except.ok addrs → interfaceIPs addrs = [] →
        BindLocal s res = (Except.error ErrEmptyBindLocal, s))
    ∧ (∀ addrs, res = Except.ok addrs → interfaceIPs addrs ≠ [] →
        BindLocal s res = (Except.ok (), Server.Bind s (interfaceIPs addrs))) := by
  refine ⟨?_, ?_, ?_⟩
  · intro e he
    simp [BindLocal, he]
  · intro addrs ha hemp
    simp [BindLocal, ha, hemp]
  · intro addrs ha hne
    have hlen : ¬ (interfaceIPs addrs).length = 0 := by
      intro h0
      exact hne (List.length_eq_zero.mp h0)
    simp [BindLocal, ha, hlen]

/-- Witness for C7: an enumeration holding one IP-network address and one
address of another type rebinds the permitted set to exactly that one IP. -/
theorem BindLocal_spec_witness :
    BindLocal { codecs := [], services := [], allow := [[1, 1, 1, 1]] }
        (Except.ok [NetAddr.ipNet [127, 0, 0, 1], NetAddr.otherAddr "pipe"])
      = (Except.ok (),
          Server.Bind { codecs := [], services := [], allow := [[1, 1, 1, 1]] }
            [[127, 0, 0, 1]]) :=
  (BindLocal_spec { codecs := [], services := [], allow := [[1, 1, 1, 1]] }
      (Except.ok [NetAddr.ipNet [127, 0, 0, 1], NetAddr.otherAddr "pipe"])).2.2
    [NetAddr.ipNet [127, 0, 0, 1], NetAddr.otherAddr "pipe"] rfl (by decide)

/-- C8 (spec-modelled, map.go is not under src/): a receiver none of whose
methods passes the five discovery rules is rejected by registration and the
registry is left unchanged. -/
theorem RegisterService_no_suitable (reg : Registry) (receiver : Receiver) (name : String)
    (h : receiver.methods.filter suitableMethod = []) :
    (∃ e, (RegisterService reg receiver name).1 = Except.error e)
    ∧ (RegisterService reg receiver name).2 = reg := by
  cases hex : isExported (if name = "" then receiver.typeName else name) with
  | false =>
    refine ⟨⟨"rpc: service name is not exported: "
        ++ (if name = "" then receiver.typeName else name), ?_⟩, ?_⟩
    · simp [RegisterService, hex]
    · simp [RegisterService, hex]
  | true =>
    refine ⟨⟨"rpc: no suitable methods to expose: "
        ++ (if name = "" then receiver.typeName else name), ?_⟩, ?_⟩
    · simp [RegisterService, hex, h]
    · simp [RegisterService, hex, h]

/-- Witness for C8: a receiver whose only method has an unexported name is
rejected and the empty registry stays empty. -/
theorem RegisterService_no_suitable_witness :
    (RegisterService []
        { typeName := "Svc",
          methods := [{ name := "helper", threeParamShape := true, refParams := true,
                        typesExportedOrLocal := true, returnsError := true,
                        spec := { reply := "", errResult := none } }] }
        "").2 = [] :=
  (RegisterService_no_suitable []
    { typeName := "Svc",
      methods := [{ name := "helper", threeParamShape := true, refParams := true,
                    typesExportedOrLocal := true, returnsError := true,
                    spec := { reply := "", errResult := none } }] }
    "" (by decide)).2

/-- C9 counterexample: the claim says no error response ever carries the
x-content-type-options header, but when the codec's WriteResponse fails
without committing, the fallback writeError 400 commits the pending headers,
which already hold the nosniff header set before the write attempt. -/
theorem writeError_nosniff_counterexample :
    (ServeHTTP
        { codecs :=
            [("x",
              { methodName := Except.ok "S.M", readReq := Except.ok (),
                writeResp := fun w _ _ => (w, some "boom") })],
          services := [("S", [("M", { reply := "", errResult := none })])],
          allow := [] }
        { remoteAddr := "3.3.3.3:3", method := "POST", header := [("Content-Type", "x")] }
        emptyWriter).1.status = some 400
    ∧ committedHeaderHas
        (ServeHTTP
          { codecs :=
              [("x",
                { methodName := Except.ok "S.M", readReq := Except.ok (),
                  writeResp := fun w _ _ => (w, some "boom") })],
            services := [("S", [("M", { reply := "", errResult := none })])],
            allow := [] }
          { remoteAddr := "3.3.3.3:3", method := "POST", header := [("Content-Type", "x")] }
          emptyWriter).1 "x-content-type-options" = true := by
  exact ⟨rfl, rfl⟩

/-- Helper for C9: an error response produced from a fresh writer commits an
empty header snapshot, so the nosniff header is not among its sent headers. -/
theorem writeError_from_empty_no_nosniff (st : Nat) (msg : String) :
    committedHeaderHas (writeError emptyWriter st msg) "x-content-type-options" = false := by
  simp [writeError, writeBody, headerSet, writeHeader, emptyWriter, committedHeaderHas,
    sentHeaders]

/-- C9 (amended): the transport-layer error writer commits the status line
before it sets the plain-text Content-Type header — the committed snapshot
is exactly the headers pending at the call, and the Content-Type lands only
in the pending map — and error responses written before the
response-encoding step (dispatches whose trace holds no WriteResponse event)
never carry the x-content-type-options header; the fallback 400 after a
failed codec write can carry it, as the counterexample shows, because the
header was set before the write attempt. -/
theorem writeError_commit_order (w : ResponseWriter) (st : Nat) (msg : String)
    (s : Server) (r : Request) :
    (w.committed = none →
      (writeError w st msg).committed = some (st, w.pending)
      ∧ pendingGet (writeError w st msg) "Content-Type" = some "text/plain; charset=utf-8")
    ∧ ((∀ rep er, Event.writeResponse rep er ∉ (ServeHTTP s r emptyWriter).2) →
      committedHeaderHas (ServeHTTP s r emptyWriter).1 "x-content-type-options" = false) := by
  constructor
  · intro hc
    constructor
    · simp [writeError, writeBody, headerSet, writeHeader, hc]
    · simp [writeError, writeBody, headerSet, writeHeader, hc, pendingGet, List.find?]
  · intro hno
    cases hca : clientAllowed s.allow r.remoteAddr with
    | some err =>
      simp [ServeHTTP, hca, writeError_from_empty_no_nosniff]
    | none =>
      by_cases hm : r.method = "POST"
      · cases hcodec : assocGet s.codecs
            (lowerGo (truncAtSemi (headerGet r.header "Content-Type"))) with
        | none =>
          simp [ServeHTTP, hca, hm, hcodec, writeError_from_empty_no_nosniff]
        | some codec =>
          cases hmn : codec.methodName with
          | error em =>
            simp [ServeHTTP, hca, hm, hcodec, hmn, writeError_from_empty_no_nosniff]
          | ok mname =>
            cases hget : serviceGet s.services mname with
            | error eg =>
              simp [ServeHTTP, hca, hm, hcodec, hmn, hget, writeError_from_empty_no_nosniff]
            | ok mspec =>
              cases hrd : codec.readReq with
              | error er =>
                simp [ServeHTTP, hca, hm, hcodec, hmn, hget, hrd,
                  writeError_from_empty_no_nosniff]
              | ok u =>
                cases u
                exfalso
                apply hno mspec.reply mspec.errResult
                rcases hw : codec.writeResp
                    (headerSet emptyWriter "x-content-type-options" "nosniff")
                    mspec.reply mspec.errResult with ⟨w2, we⟩
                cases we with
                | none => simp [ServeHTTP, hca, hm, hcodec, hmn, hget, hrd, hw]
                | some ew => simp [ServeHTTP, hca, hm, hcodec, hmn, hget, hrd, hw]
      · simp [ServeHTTP, hca, hm, writeError_from_empty_no_nosniff]

/-- Witness for C9: a concrete writeError call on an uncommitted writer and
a concrete rejected dispatch whose 403 response carries no nosniff header. -/
theorem writeError_commit_order_witness :
    ((writeError { pending := [("a", "b")], committed := none, body := "" } 500 "oops").committed
        = some (500, [("a", "b")])
      ∧ pendingGet (writeError { pending := [("a", "b")], committed := none, body := "" }
          500 "oops") "Content-Type" = some "text/plain; charset=utf-8")
    ∧ committedHeaderHas
        (ServeHTTP { codecs := [], services := [], allow := [[9, 8, 7, 6]] }
          { remoteAddr := "2.2.2.2:2", method := "POST", header := [] } emptyWriter).1
        "x-content-type-options" = false := by
  constructor
  · exact (writeError_commit_order { pending := [("a", "b")], committed := none, body := "" }
      500 "oops" { codecs := [], services := [], allow := [[9, 8, 7, 6]] }
      { remoteAddr := "2.2.2.2:2", method := "POST", header := [] }).1 rfl
  · refine (writeError_commit_order { pending := [("a", "b")], committed := none, body := "" }
      500 "oops" { codecs := [], services := [], allow := [[9, 8, 7, 6]] }
      { remoteAddr := "2.2.2.2:2", method := "POST", header := [] }).2 ?_
    intro rep er hmem
    have hnil : (ServeHTTP { codecs := [], services := [], allow := [[9, 8, 7, 6]] }
        { remoteAddr := "2.2.2.2:2", method := "POST", header := [] } emptyWriter).2 = [] := rfl
    rw [hnil] at hmem
    exact List.not_mem_nil _ hmem

/-- C10: NewErrorObject is total and never reports failure: when the map
marshals it is stored together with its blob, and when marshalling fails the
result still carries a value — the fallback object with code -1 and the
formatted original map as the message, with a nil blob. -/
theorem NewErrorObject_total_spec (m : GoMap) :
    (∀ b, marshalMap m = some b → NewErrorObject m = { object := m, blob := some b })
    ∧ (marshalMap m = none →
        NewErrorObject m
          = { object := [("code", GoVal.vInt (-1)),
                ("message", GoVal.vStr (formatGoMap m))],
              blob := none }) := by
  constructor
  · intro b hb
    simp [NewErrorObject, hb]
  · intro hb
    simp [NewErrorObject, hb]

/-- Witness for C10: a marshallable map keeps its object and gains a blob; a
map holding an unmarshallable value still yields a value, with a nil blob. -/
theorem NewErrorObject_total_spec_witness :
    NewErrorObject [("a", GoVal.vStr "x")]
        = { object := [("a", GoVal.vStr "x")], blob := some "\x7b\"a\":\"x\"\x7d" }
    ∧ (NewErrorObject [("f", GoVal.vUnsupported "chan int")]).blob = none := by
  constructor
  · exact (NewErrorObject_total_spec [("a", GoVal.vStr "x")]).1 "\x7b\"a\":\"x\"\x7d" (by decide)
  · exact congrArg JError.blob
      ((NewErrorObject_total_spec [("f", GoVal.vUnsupported "chan int")]).2 (by decide))
